import Mathlib

/-!
Shallow embedding of the Program Lifecycle Orchestrator of `debian_bridge`
(crate `debian_bridge_core`, files `src/app/config.rs` and `src/app/mod.rs`),
together with proofs of the testable properties stated in its design
specification.

Modelling conventions:
* Rust `String` / `PathBuf` become Lean `String` (paths are carried as opaque
  strings; the code never inspects their structure).
* Rust `Vec<T>` becomes `List T`; `Vec::push` is append at the end,
  `Vec::remove(i)` is `List.eraseIdx`.
* `Result<T, AppError>` becomes `Except AppError T`.
* Methods taking `&mut self` are modelled by state passing: they return the
  result together with the successor state, so that "the state is unchanged
  on the error path" is a provable statement rather than a convention.
* Calls into external collaborators (the docker gateway, the `.deb` metadata
  extractor, the filesystem) are modelled by environment records that supply
  each call's outcome, and every orchestrator operation additionally returns
  the ordered trace of external calls it performed, so that ordering and
  absence-of-side-effect claims are statements about the trace.
-/

/-- Bridgeable host capability (`Feature` enum, config.rs lines 39-47). -/
inductive Feature where
  | display
  | sound
  | notification
  | devices
  | homePersistent
  | time
deriving DecidableEq, Repr

/-- Icon resource reference (`Icon` struct, config.rs lines 15-18); the path
is carried as a string. -/
structure Icon where
  path : String
deriving DecidableEq, Repr

/-- Persisted program record (`Program` struct, config.rs lines 66-74). -/
structure Program where
  name : String
  path : String
  settings : List Feature
  icon : Option Icon
  command : String
  deps : Option String
deriving DecidableEq, Repr

/-- Constructor `Program::new` (config.rs lines 85-107): the launch command
defaults to the program name when no command is supplied. -/
def Program.new (name : String) (path : String) (settings : List Feature)
    (icon : Option Icon) (cmd : Option String) (deps : Option String) : Program :=
  { name := name
    path := path
    settings := settings
    icon := icon
    command := cmd.getD name
    deps := deps }

/-- Short name accessor `Program::get_name_short` (config.rs lines 81-83). -/
def Program.get_name_short (p : Program) : String :=
  p.name

/-- Runtime-facing identifier `Program::get_name` (config.rs lines 77-79). -/
def Program.get_name (p : Program) (prefixStr : String) : String :=
  prefixStr ++ "_" ++ p.name

/-- The registry of installed programs (`Config` struct, config.rs
lines 109-112). -/
structure Config where
  programs : List Program
deriving DecidableEq, Repr

/-- Error type of the core (`AppError`, src/app/error.rs — the file itself is
not part of the provided sources; the variants are exactly those constructed
by the code under `src/app/mod.rs` and `src/app/config.rs`:
`AppError::Program(String)`, `AppError::File(String)`,
`AppError::DockerStatus(u32)`). -/
inductive AppError where
  | program (msg : String)
  | file (msg : String)
  | dockerStatus (code : Nat)
deriving DecidableEq, Repr

/-- The exact duplicate-name message built by `Config::push`
(config.rs lines 154-161). -/
def dupMsg (name : String) : String :=
  "Program with such name already exists " ++ "'" ++ name ++
    "'" ++ ". Remove it first or use a custom tag with -t (--tag) option"

/-- Registry insertion `Config::push` (config.rs lines 151-168): fails when a
record with the same name is already present (the registry is returned
unchanged), otherwise appends at the end.  State-passing rendering of
`&mut self`. -/
def Config.push (c : Config) (p : Program) : Except AppError Unit × Config :=
  match c.programs.find? (fun x => x.name == p.name) with
  | some _ => (Except.error (AppError.program (dupMsg p.name)), c)
  | none => (Except.ok (), { programs := c.programs ++ [p] })

/-- Iterator position search: model of Rust `iter().position(pred)` used by
`Config::find`. -/
def listPosition (pred : Program → Bool) : List Program → Option Nat
  | [] => none
  | x :: xs => if pred x then some 0 else (listPosition pred xs).map (· + 1)

/-- Registry lookup `Config::find` (config.rs lines 170-174): position of the
first record with the given name, paired with the record itself. -/
def Config.find (c : Config) (name : String) : Option (Program × Nat) :=
  match listPosition (fun x => x.name == name) c.programs with
  | none => none
  | some idx => (c.programs[idx]?).map fun p => (p, idx)

/-- Registry removal `Config::remove` (config.rs lines 176-186): looks the
program up by name and removes the entry at the found position; fails when
the name is absent.  State-passing rendering of `&mut self`. -/
def Config.remove (c : Config) (p : Program) : Except AppError Unit × Config :=
  match c.find p.name with
  | none =>
      (Except.error (AppError.program
        ("Can" ++ "'" ++ "t find a program " ++ "'" ++ p.name ++ "'")), c)
  | some (_, idx) => (Except.ok (), { programs := c.programs.eraseIdx idx })

/-- Destructive reset `Config::clear` (config.rs lines 188-191). -/
def Config.clear (_ : Config) : Config :=
  { programs := [] }

/-- Program names in registry order (`App::list`, mod.rs lines 101-108). -/
def App.list (c : Config) : List String :=
  c.programs.map fun p => p.get_name_short

/-- Host probe result consumed by `FeaturesList::new` (`System` lives in the
crate root, outside the provided sources; `mod.rs` only uses
`system.wm.is_some()` and `system.sd.is_some()`, the presence of a window
manager and of a sound daemon). -/
structure System where
  wm : Option Unit
  sd : Option Unit

/-- Capability availability map (`FeaturesList`, mod.rs lines 25-27); the
`HashMap<Feature, bool>` is modelled as a partial function so that absent
keys are observable, exactly as `HashMap::get` makes them. -/
structure FeaturesList where
  list : Feature → Option Bool

/-- Availability-map construction `FeaturesList::new` (mod.rs lines 30-41):
`Display` and `Sound` depend on the host probe, the other four capabilities
are always available. -/
def FeaturesList.new (system : System) : FeaturesList :=
  { list := fun f =>
      match f with
      | Feature.display => some system.wm.isSome
      | Feature.sound => some system.sd.isSome
      | Feature.devices => some true
      | Feature.notification => some true
      | Feature.time => some true
      | Feature.homePersistent => some true }

/-- Capability validation `FeaturesList::validate` (mod.rs lines 43-54): the
`try_for_each` short-circuits with `Err` on the first requested feature that
is absent from the map or mapped to `false`; the result is `is_ok`. -/
def FeaturesList.validate (fl : FeaturesList) : List Feature → Bool
  | [] => true
  | f :: fs =>
      match fl.list f with
      | some true => fl.validate fs
      | some false => false
      | none => false

/-- Filesystem view seen by one call of `Config::deserialize`
(config.rs lines 115-141): whether the storage path exists, the outcome of
`File::create`, the outcome of the `fs::write` performed by the initial
`config.serialize(path)` call, the outcome of open-plus-`read_to_string`
(yielding the content on success), and the behaviour of
`serde_json::from_str` on the content that was read (serde_json is an
external collaborator; each scenario supplies the outcomes of its calls). -/
structure Storage where
  pathExists : Bool
  createRes : Except String Unit
  initWriteRes : Except String Unit
  readRes : Except String String
  fromStr : String → Except String Config

/-- Registry load `Config::deserialize` (config.rs lines 115-141).
When the storage path does not exist: `File::create`, then
`config.serialize(path)` whose `Result` is discarded (line 121 ends with `;`
and no `?`), then return the empty registry.  When it exists: read the whole
file; an exactly-empty content short-circuits to the empty registry without
parsing; otherwise the content is handed to `serde_json::from_str`, whose
error becomes `AppError::File`. -/
def Config.deserialize (st : Storage) : Except AppError Config :=
  if !st.pathExists then
    match st.createRes with
    | Except.ok _ =>
        let _ := st.initWriteRes
        Except.ok { programs := [] }
    | Except.error e => Except.error (AppError.file e)
  else
    match st.readRes with
    | Except.error e => Except.error (AppError.file e)
    | Except.ok content =>
        if content == "" then
          Except.ok { programs := [] }
        else
          match st.fromStr content with
          | Except.ok cfg => Except.ok cfg
          | Except.error e => Except.error (AppError.file e)

/-!
JSON document model for the persisted registry format.

`Config::serialize` (config.rs lines 143-149) is `serde_json::to_string`
followed by `fs::write`; `Config::deserialize` parses with
`serde_json::from_str`.  The derived serde instances of `Config`, `Program`,
`Icon` and `Feature` determine a document shape which we reproduce here:
structs become objects with one key per field in declaration order, `Option`
fields become `null` or the value, `Vec` becomes an array, unit enum
variants become their name as a string, and `PathBuf` serializes as a
string.  `renderChars` reproduces `serde_json::to_string`'s compact textual
output (needed only to observe that a serialized registry document is never
the empty string, so a reload never takes `deserialize`'s empty-content
shortcut).
-/

/-- JSON values occurring in the registry document (numbers and booleans do
not occur in this data model). -/
inductive Json where
  | null
  | str (s : String)
  | arr (elems : List Json)
  | obj (fields : List (String × Json))

/-- Serde encoding of a `Feature` unit variant. -/
def encodeFeature : Feature → Json
  | Feature.display => Json.str "Display"
  | Feature.sound => Json.str "Sound"
  | Feature.notification => Json.str "Notification"
  | Feature.devices => Json.str "Devices"
  | Feature.homePersistent => Json.str "HomePersistent"
  | Feature.time => Json.str "Time"

/-- Serde decoding of a `Feature` unit variant. -/
def decodeFeature : Json → Except String Feature
  | Json.str "Display" => Except.ok Feature.display
  | Json.str "Sound" => Except.ok Feature.sound
  | Json.str "Notification" => Except.ok Feature.notification
  | Json.str "Devices" => Except.ok Feature.devices
  | Json.str "HomePersistent" => Except.ok Feature.homePersistent
  | Json.str "Time" => Except.ok Feature.time
  | _ => Except.error "unknown variant"

/-- Serde encoding of an `Option` field (`None` becomes `null`). -/
def encodeOption (enc : α → Json) : Option α → Json
  | none => Json.null
  | some a => enc a

/-- Serde decoding of an `Option` field. -/
def decodeOption (dec : Json → Except String α) : Json → Except String (Option α)
  | Json.null => Except.ok none
  | j => (dec j).map some

/-- Serde decoding of a JSON array, element by element (`Vec` visitor). -/
def decodeList (dec : Json → Except String α) : List Json → Except String (List α)
  | [] => Except.ok []
  | j :: js =>
      match dec j with
      | Except.error e => Except.error e
      | Except.ok a =>
          match decodeList dec js with
          | Except.error e => Except.error e
          | Except.ok as => Except.ok (a :: as)

/-- Serde encoding of an `Icon`. -/
def encodeIcon (i : Icon) : Json :=
  Json.obj [("path", Json.str i.path)]

/-- Serde decoding of an `Icon`. -/
def decodeIcon : Json → Except String Icon
  | Json.obj fields =>
      match fields.lookup "path" with
      | some (Json.str s) => Except.ok { path := s }
      | _ => Except.error "invalid icon"
  | _ => Except.error "invalid icon"

/-- Expect a JSON string. -/
def decodeStr : Json → Except String String
  | Json.str s => Except.ok s
  | _ => Except.error "expected string"

/-- Serde encoding of a `Program` record: object with the struct's fields in
declaration order. -/
def encodeProgram (p : Program) : Json :=
  Json.obj
    [ ("name", Json.str p.name)
    , ("path", Json.str p.path)
    , ("settings", Json.arr (p.settings.map encodeFeature))
    , ("icon", encodeOption encodeIcon p.icon)
    , ("command", Json.str p.command)
    , ("deps", encodeOption Json.str p.deps) ]

/-- Serde decoding of a `Program` record (field lookup by key, as serde's
map visitor does). -/
def decodeProgram : Json → Except String Program
  | Json.obj fields => do
      let name ← match fields.lookup "name" with
        | some j => decodeStr j
        | none => Except.error "missing field name"
      let path ← match fields.lookup "path" with
        | some j => decodeStr j
        | none => Except.error "missing field path"
      let settings ← match fields.lookup "settings" with
        | some (Json.arr js) => decodeList decodeFeature js
        | _ => Except.error "missing field settings"
      let icon ← match fields.lookup "icon" with
        | some j => decodeOption decodeIcon j
        | none => Except.ok none
      let command ← match fields.lookup "command" with
        | some j => decodeStr j
        | none => Except.error "missing field command"
      let deps ← match fields.lookup "deps" with
        | some j => decodeOption decodeStr j
        | none => Except.ok none
      Except.ok { name := name, path := path, settings := settings,
                  icon := icon, command := command, deps := deps }
  | _ => Except.error "invalid program"

/-- Serde encoding of the whole registry document. -/
def encodeConfig (c : Config) : Json :=
  Json.obj [("programs", Json.arr (c.programs.map encodeProgram))]

/-- Serde decoding of the whole registry document. -/
def decodeConfig : Json → Except String Config
  | Json.obj fields =>
      match fields.lookup "programs" with
      | some (Json.arr js) => (decodeList decodeProgram js).map fun ps => { programs := ps }
      | _ => Except.error "invalid config"
  | _ => Except.error "invalid config"

/-- Hexadecimal digit for a control-character escape. -/
def hexDigit (n : Nat) : Char :=
  if n < 10 then Char.ofNat (48 + n) else Char.ofNat (87 + n)

/-- Escape one character as `serde_json` does in string literals: quote and
backslash get a backslash escape, control characters get their short escape
or a `u00XX` escape, everything else is passed through. -/
def escapeChar (c : Char) : List Char :=
  if c = Char.ofNat 34 then [Char.ofNat 92, Char.ofNat 34]
  else if c = Char.ofNat 92 then [Char.ofNat 92, Char.ofNat 92]
  else if c = Char.ofNat 8 then [Char.ofNat 92, 'b']
  else if c = Char.ofNat 9 then [Char.ofNat 92, 't']
  else if c = Char.ofNat 10 then [Char.ofNat 92, 'n']
  else if c = Char.ofNat 12 then [Char.ofNat 92, 'f']
  else if c = Char.ofNat 13 then [Char.ofNat 92, 'r']
  else if c.toNat < 32 then
    [Char.ofNat 92, 'u', '0', '0', hexDigit (c.toNat / 16), hexDigit (c.toNat % 16)]
  else [c]

/-- Render a JSON string literal, quotes included. -/
def renderStr (s : String) : List Char :=
  Char.ofNat 34 :: (s.toList.foldr (fun c acc => escapeChar c ++ acc) [Char.ofNat 34])

mutual

/-- Compact textual rendering of a JSON value, as `serde_json::to_string`
produces it (no whitespace). -/
def renderChars : Json → List Char
  | Json.null => ['n', 'u', 'l', 'l']
  | Json.str s => renderStr s
  | Json.arr es => '[' :: renderArr es ++ [']']
  | Json.obj fs => Char.ofNat 123 :: renderObj fs ++ [Char.ofNat 125]

/-- Comma-joined rendering of array elements. -/
def renderArr : List Json → List Char
  | [] => []
  | [e] => renderChars e
  | e :: es => renderChars e ++ ',' :: renderArr es

/-- Comma-joined rendering of object fields. -/
def renderObj : List (String × Json) → List Char
  | [] => []
  | [(k, v)] => renderStr k ++ ':' :: renderChars v
  | (k, v) :: fs => renderStr k ++ ':' :: renderChars v ++ ',' :: renderObj fs

end

/-- Textual output of `serde_json::to_string` on a JSON document. -/
def renderJson (j : Json) : String :=
  String.mk (renderChars j)

/-- Registry save `Config::serialize` (config.rs lines 143-149): the
document written to storage is the compact rendering of the serde encoding
of the registry. -/
def Config.serialize (c : Config) : String :=
  renderJson (encodeConfig c)

example : Config.serialize { programs := [] } = "\x7b\"programs\":[]\x7d" := by rfl

/-- Package metadata extracted from a `.deb` artifact (`Deb`, src/app/deb.rs
is outside the provided sources; mod.rs reads `deb.package` and
`deb.description`, matching the spec's extractor interface
`extract(artifactPath) -> (packageName, description?, dependencies?)`). -/
structure Deb where
  package : String
  description : Option String
deriving DecidableEq, Repr

/-- External calls an orchestrator operation can perform, in the order they
appear in `App::create`, `App::run` and `App::remove` (mod.rs).  A trace
records every call that was issued, whether or not it succeeded. -/
inductive Event where
  | debExtract
  | fsCreateDir
  | fsCopy
  | genDockerfile
  | fsWriteDockerfile
  | registryPush (name : String)
  | dockerBuild (package : String)
  | fsRemoveDockerfile
  | fsRemoveTmp
  | desktopEntryWrite
  | dockerRun (name : String)
  | dockerDelete (name : String)
  | fsRemoveEntry
deriving DecidableEq, Repr

/-- Outcomes of the external calls one `App::create` invocation can make
(mod.rs lines 167-213): `Deb::try_new`, `fs::create_dir_all`, `fs::copy`,
`util::gen_dockerfile`, `fs::write`, `docker.create`, the two
`fs::remove_file` calls and the best-effort desktop-entry write. -/
structure CreateEnv where
  debRes : Except AppError Deb
  createDirRes : Except String Unit
  copyRes : Except String Unit
  genDockerfileRes : Except AppError String
  writeRes : Except String Unit
  dockerCreateRes : Except AppError Unit
  removeDockerfileRes : Except String Unit
  removeTmpRes : Except String Unit
  entryRes : Except AppError Unit

/-- Program creation `App::create` (mod.rs lines 167-213), as a transition
on the registry that also reports the trace of external calls.  The source
order is: validate capabilities (no call on failure), extract metadata,
build the record, create the cache directory, copy the artifact to
`tmp.deb`, generate the Dockerfile text, write it, push the record into the
registry, ask docker to build, remove the Dockerfile, remove `tmp.deb`, and
finally (with an icon) best-effort write a desktop entry whose failure is
only logged. -/
def App.create (cfg : Config) (fl : FeaturesList) (env : CreateEnv)
    (appPath : String) (settings : List Feature) (icon : Option Icon)
    (cmd : Option String) (deps : Option String) :
    Except AppError Unit × Config × List Event :=
  if !(fl.validate settings) then
    (Except.error (AppError.program "You have set unavailable feature"), cfg, [])
  else
    match env.debRes with
    | Except.error e => (Except.error e, cfg, [Event.debExtract])
    | Except.ok deb =>
      let program := Program.new deb.package appPath settings icon cmd deps
      match env.createDirRes with
      | Except.error e =>
          (Except.error (AppError.file e), cfg, [Event.debExtract, Event.fsCreateDir])
      | Except.ok _ =>
        match env.copyRes with
        | Except.error e =>
            (Except.error (AppError.file e), cfg,
              [Event.debExtract, Event.fsCreateDir, Event.fsCopy])
        | Except.ok _ =>
          match env.genDockerfileRes with
          | Except.error e =>
              (Except.error e, cfg,
                [Event.debExtract, Event.fsCreateDir, Event.fsCopy, Event.genDockerfile])
          | Except.ok _ =>
            match env.writeRes with
            | Except.error e =>
                (Except.error (AppError.file e), cfg,
                  [Event.debExtract, Event.fsCreateDir, Event.fsCopy,
                   Event.genDockerfile, Event.fsWriteDockerfile])
            | Except.ok _ =>
              match cfg.push program with
              | (Except.error e, cfg1) =>
                  (Except.error e, cfg1,
                    [Event.debExtract, Event.fsCreateDir, Event.fsCopy,
                     Event.genDockerfile, Event.fsWriteDockerfile,
                     Event.registryPush program.name])
              | (Except.ok _, cfg1) =>
                match env.dockerCreateRes with
                | Except.error e =>
                    (Except.error e, cfg1,
                      [Event.debExtract, Event.fsCreateDir, Event.fsCopy,
                       Event.genDockerfile, Event.fsWriteDockerfile,
                       Event.registryPush program.name, Event.dockerBuild deb.package])
                | Except.ok _ =>
                  match env.removeDockerfileRes with
                  | Except.error e =>
                      (Except.error (AppError.file e), cfg1,
                        [Event.debExtract, Event.fsCreateDir, Event.fsCopy,
                         Event.genDockerfile, Event.fsWriteDockerfile,
                         Event.registryPush program.name, Event.dockerBuild deb.package,
                         Event.fsRemoveDockerfile])
                  | Except.ok _ =>
                    match env.removeTmpRes with
                    | Except.error e =>
                        (Except.error (AppError.file e), cfg1,
                          [Event.debExtract, Event.fsCreateDir, Event.fsCopy,
                           Event.genDockerfile, Event.fsWriteDockerfile,
                           Event.registryPush program.name, Event.dockerBuild deb.package,
                           Event.fsRemoveDockerfile, Event.fsRemoveTmp])
                    | Except.ok _ =>
                      let base :=
                        [Event.debExtract, Event.fsCreateDir, Event.fsCopy,
                         Event.genDockerfile, Event.fsWriteDockerfile,
                         Event.registryPush program.name, Event.dockerBuild deb.package,
                         Event.fsRemoveDockerfile, Event.fsRemoveTmp]
                      match icon with
                      | some _ =>
                          (Except.ok (), cfg1, base ++ [Event.desktopEntryWrite])
                      | none => (Except.ok (), cfg1, base)

/-- Program launch `App::run` (mod.rs lines 228-237): look the record up
(`Program not found` if absent), then call the docker gateway's run; `self`
is taken by shared reference, so the registry can never change. -/
def App.run (cfg : Config) (runRes : Except AppError Unit) (name : String) :
    Except AppError Unit × Config × List Event :=
  match cfg.find name with
  | none => (Except.error (AppError.program "Program not found"), cfg, [])
  | some (p, _) =>
      match runRes with
      | Except.ok _ => (Except.ok (), cfg, [Event.dockerRun p.name])
      | Except.error e => (Except.error e, cfg, [Event.dockerRun p.name])

/-- Outcomes of the external calls one `App::remove` invocation can make
(mod.rs lines 124-151): `docker.delete` and the best-effort removal of the
desktop-entry file. -/
structure RemoveEnv where
  deleteRes : Except AppError Unit
  removeEntryRes : Except String Unit

/-- Tail of `App::remove` once the gateway delete was accepted (either it
succeeded or its 404 was swallowed): remove the record from the registry,
then best-effort remove the desktop-entry file when the record has an
icon. -/
def App.removeRest (cfg : Config) (p : Program) :
    Except AppError Unit × Config × List Event :=
  match cfg.remove p with
  | (Except.error e, cfg1) => (Except.error e, cfg1, [Event.dockerDelete p.name])
  | (Except.ok _, cfg1) =>
      match p.icon with
      | some _ => (Except.ok (), cfg1, [Event.dockerDelete p.name, Event.fsRemoveEntry])
      | none => (Except.ok (), cfg1, [Event.dockerDelete p.name])

/-- Program removal `App::remove` (mod.rs lines 124-151): look the record up
(failing when absent, with no gateway call), call the docker gateway's
delete — `Ok` and `Err(DockerStatus(404))` both continue, any other error is
returned at once — then remove the record from the registry; the
desktop-entry cleanup failure is only logged. -/
def App.remove (cfg : Config) (env : RemoveEnv) (name : String) :
    Except AppError Unit × Config × List Event :=
  match cfg.find name with
  | none =>
      (Except.error (AppError.program
        ("Input program doesn" ++ "'" ++ "t exist")), cfg, [])
  | some (p, _) =>
      match env.deleteRes with
      | Except.ok _ => App.removeRest cfg p
      | Except.error e =>
          if e = AppError.dockerStatus 404 then App.removeRest cfg p
          else (Except.error e, cfg, [Event.dockerDelete p.name])

example : Config.push { programs := [] } (Program.new "foo" "./p.deb" [] none none none) =
    (Except.ok (), { programs := [Program.new "foo" "./p.deb" [] none none none] }) := by rfl

example : (FeaturesList.new { wm := some (), sd := none }).validate [Feature.sound] = false := by rfl

example : (FeaturesList.new { wm := some (), sd := none }).validate [] = true := by rfl

/-- Availability maps built by `FeaturesList::new` are total: every
capability has an entry. -/
theorem FeaturesList.new_total (sys : System) (f : Feature) :
    ∃ b, (FeaturesList.new sys).list f = some b := by
  cases f <;> exact ⟨_, rfl⟩

/-- Unfolding of `listPosition` on a successful search: the reported index
holds an element satisfying the predicate. -/
theorem listPosition_some (pred : Program → Bool) :
    ∀ (l : List Program) (i : Nat), listPosition pred l = some i →
      ∃ p, l[i]? = some p ∧ pred p = true := by
  intro l
  induction l with
  | nil => intro i h; simp [listPosition] at h
  | cons x xs ih =>
      intro i h
      by_cases hx : pred x
      · simp [listPosition, hx] at h
        subst h
        exact ⟨x, by simp, hx⟩
      · simp [listPosition, hx] at h
        obtain ⟨j, hj, hij⟩ := h
        obtain ⟨p, hp, hpred⟩ := ih j hj
        exact ⟨p, by simpa [← hij] using hp, hpred⟩

/-- Characterisation of a successful `Config::find`: the returned record
sits at the returned position and bears the searched name. -/
theorem Config.find_spec (c : Config) (name : String) (p : Program) (i : Nat)
    (h : c.find name = some (p, i)) :
    c.programs[i]? = some p ∧ p.name = name ∧
      listPosition (fun x => x.name == name) c.programs = some i := by
  unfold Config.find at h
  cases hpos : listPosition (fun x => x.name == name) c.programs with
  | none => rw [hpos] at h; exact absurd h (by simp)
  | some idx =>
      simp only [hpos] at h
      cases hget : c.programs[idx]? with
      | none => rw [hget] at h; exact absurd h (by simp)
      | some q =>
          rw [hget] at h
          have hq : q = p := congrArg Prod.fst (Option.some.inj h)
          have hidx : idx = i := congrArg Prod.snd (Option.some.inj h)
          subst hq; subst hidx
          obtain ⟨p2, hp2, hpred⟩ := listPosition_some _ _ _ hpos
          rw [hget] at hp2
          have hp2q : p2 = q := (Option.some.inj hp2).symm
          subst hp2q
          exact ⟨hget, by simpa using hpred, rfl⟩

/-- C2: over an availability map built by `FeaturesList::new`, `validate`
returns `false` iff at least one requested capability is mapped to `false`;
and on the empty request it returns `true` for every availability map
whatsoever. -/
theorem validate_false_iff_unavailable (sys : System) (s : List Feature) :
    ((FeaturesList.new sys).validate s = false ↔
        ∃ f ∈ s, (FeaturesList.new sys).list f = some false)
      ∧ ∀ fl : FeaturesList, fl.validate [] = true := by
  refine ⟨?_, fun fl => rfl⟩
  induction s with
  | nil => simp [FeaturesList.validate]
  | cons f fs ih =>
      obtain ⟨b, hb⟩ := FeaturesList.new_total sys f
      cases b
      · constructor
        · intro _
          exact ⟨f, List.mem_cons_self f fs, hb⟩
        · intro _
          simp [FeaturesList.validate, hb]
      · have hval : (FeaturesList.new sys).validate (f :: fs) =
            (FeaturesList.new sys).validate fs := by
          simp [FeaturesList.validate, hb]
        rw [hval, ih]
        constructor
        · rintro ⟨g, hg, hgf⟩
          exact ⟨g, List.mem_cons_of_mem f hg, hgf⟩
        · rintro ⟨g, hg, hgf⟩
          rcases List.mem_cons.mp hg with hgf2 | hgm
          · subst hgf2
            rw [hb] at hgf
            exact absurd hgf (by simp)
          · exact ⟨g, hgm, hgf⟩

/-- C3: `Config::push` fails with the duplicate-name error and leaves the
registry unchanged when a record with the requested name is already present;
otherwise it appends the record at the end. -/
theorem push_duplicate_or_append (c : Config) (p : Program) :
    ((∃ q ∈ c.programs, q.name = p.name) →
        c.push p = (Except.error (AppError.program (dupMsg p.name)), c))
      ∧ ((∀ q ∈ c.programs, q.name ≠ p.name) →
        c.push p = (Except.ok (), { programs := c.programs ++ [p] })) := by
  unfold Config.push
  cases hfind : c.programs.find? (fun x => x.name == p.name) with
  | some q =>
      refine ⟨fun _ => rfl, fun hall => ?_⟩
      have hq := List.find?_some hfind
      have hmem := List.mem_of_find?_eq_some hfind
      exact absurd (by simpa using hq) (hall q hmem)
  | none =>
      refine ⟨fun hex => ?_, fun _ => rfl⟩
      obtain ⟨q, hmem, hname⟩ := hex
      have hnot := List.find?_eq_none.mp hfind q hmem
      simp [hname] at hnot

/-- C3 witness: pushing `foo` onto an empty registry appends it; pushing a
second record named `foo` fails with the duplicate error and leaves the
one-record registry unchanged. -/
theorem push_duplicate_or_append_witness :
    (∀ q ∈ (Config.mk []).programs, q.name ≠ "foo")
    ∧ Config.push { programs := [] } (Program.new "foo" "./a.deb" [] none none none) =
        (Except.ok (), { programs := [Program.new "foo" "./a.deb" [] none none none] })
    ∧ (∃ q ∈ (Config.mk [Program.new "foo" "./a.deb" [] none none none]).programs,
        q.name = (Program.new "foo" "./b.deb" [] none none none).name)
    ∧ Config.push { programs := [Program.new "foo" "./a.deb" [] none none none] }
        (Program.new "foo" "./b.deb" [] none none none) =
      (Except.error (AppError.program (dupMsg "foo")),
        { programs := [Program.new "foo" "./a.deb" [] none none none] }) := by
  refine ⟨by simp, ?_, ⟨Program.new "foo" "./a.deb" [] none none none, by simp, rfl⟩, ?_⟩
  · exact (push_duplicate_or_append { programs := [] }
      (Program.new "foo" "./a.deb" [] none none none)).2 (by simp)
  · exact (push_duplicate_or_append
      { programs := [Program.new "foo" "./a.deb" [] none none none] }
      (Program.new "foo" "./b.deb" [] none none none)).1
      ⟨Program.new "foo" "./a.deb" [] none none none, by simp, rfl⟩

/-- C7: `App::create` on a request containing an unavailable capability
fails immediately with the unavailable-feature error: the trace is empty (no
extraction, no build, no filesystem call) and the registry is untouched. -/
theorem create_rejects_unavailable (cfg : Config) (fl : FeaturesList)
    (env : CreateEnv) (appPath : String) (settings : List Feature)
    (icon : Option Icon) (cmd : Option String) (deps : Option String)
    (h : fl.validate settings = false) :
    App.create cfg fl env appPath settings icon cmd deps =
      (Except.error (AppError.program "You have set unavailable feature"), cfg, []) := by
  unfold App.create
  rw [h]
  rfl

/-- Host probe with a window manager but no sound daemon (scenario A). -/
def noSoundSystem : System :=
  { wm := some (), sd := none }

/-- Environment in which every external call of `create` succeeds and the
package extractor reports package `foo`. -/
def happyEnv : CreateEnv :=
  { debRes := Except.ok { package := "foo", description := none }
    createDirRes := Except.ok ()
    copyRes := Except.ok ()
    genDockerfileRes := Except.ok "FROM debian"
    writeRes := Except.ok ()
    dockerCreateRes := Except.ok ()
    removeDockerfileRes := Except.ok ()
    removeTmpRes := Except.ok ()
    entryRes := Except.ok () }

/-- C7 witness: scenario A of the spec — sound is unavailable and `create`
requesting `Sound` fails with the unavailable-feature error and an empty
trace. -/
theorem create_rejects_unavailable_witness :
    (FeaturesList.new noSoundSystem).validate [Feature.sound] = false
      ∧ App.create { programs := [] } (FeaturesList.new noSoundSystem) happyEnv
          "./pkg.deb" [Feature.sound] none none none =
        (Except.error (AppError.program "You have set unavailable feature"),
          { programs := [] }, []) :=
  ⟨rfl, create_rejects_unavailable { programs := [] } (FeaturesList.new noSoundSystem)
    happyEnv "./pkg.deb" [Feature.sound] none none none rfl⟩

/-- C8: `App::run` on a name absent from the registry fails with the
`Program not found` error without any gateway call (empty trace), and `run`
leaves the registry unchanged on every input. -/
theorem run_not_found_no_mutation (cfg : Config) (runRes : Except AppError Unit)
    (name : String) :
    (cfg.find name = none →
        App.run cfg runRes name =
          (Except.error (AppError.program "Program not found"), cfg, []))
      ∧ (App.run cfg runRes name).2.1 = cfg := by
  constructor
  · intro h
    unfold App.run
    rw [h]
  · unfold App.run
    cases cfg.find name with
    | none => rfl
    | some pi =>
        obtain ⟨p, i⟩ := pi
        cases runRes <;> rfl

/-- C8 witness: scenario C of the spec — running `nonexistent` on an empty
registry fails with `Program not found` and performs no gateway call. -/
theorem run_not_found_no_mutation_witness :
    Config.find { programs := [] } "nonexistent" = none
      ∧ App.run { programs := [] } (Except.ok ()) "nonexistent" =
        (Except.error (AppError.program "Program not found"), { programs := [] }, []) :=
  ⟨rfl, (run_not_found_no_mutation { programs := [] } (Except.ok ()) "nonexistent").1 rfl⟩

/-- C10: when the storage path is absent, `deserialize` returns the empty
registry as soon as `File::create` succeeds — the outcome of the initial
write of the fresh empty document is discarded, so even a failing write
reports success — and only a failure of `File::create` itself is an
error. -/
theorem deserialize_initializes_ignoring_write (w : Except String Unit)
    (r : Except String String) (p : String → Except String Config) (e : String) :
    Config.deserialize { pathExists := false, createRes := Except.ok (),
                         initWriteRes := w, readRes := r, fromStr := p } =
      Except.ok { programs := [] }
    ∧ Config.deserialize { pathExists := false, createRes := Except.error e,
                           initWriteRes := w, readRes := r, fromStr := p } =
      Except.error (AppError.file e) :=
  ⟨rfl, rfl⟩

/-- Helper: after a successful lookup by name, removing the found record
succeeds and erases exactly the found position. -/
theorem Config.remove_of_find (c : Config) (name : String) (p : Program) (i : Nat)
    (h : c.find name = some (p, i)) :
    c.remove p = (Except.ok (), { programs := c.programs.eraseIdx i }) := by
  obtain ⟨hget, hname, hpos⟩ := Config.find_spec c name p i h
  unfold Config.remove
  rw [hname]
  simp only [h]

/-- C6: when the record exists, a gateway delete answering `DockerStatus
404` is swallowed — `remove` succeeds and the record's registry entry is
erased — while any gateway delete error other than 404 aborts `remove` with
that error and leaves the registry unchanged. -/
theorem remove_gateway_404_swallowed (cfg : Config) (env : RemoveEnv) (name : String)
    (p : Program) (i : Nat) (hfind : cfg.find name = some (p, i)) :
    (env.deleteRes = Except.error (AppError.dockerStatus 404) →
        (App.remove cfg env name).1 = Except.ok ()
        ∧ (App.remove cfg env name).2.1 = { programs := cfg.programs.eraseIdx i })
      ∧ (∀ e, env.deleteRes = Except.error e → e ≠ AppError.dockerStatus 404 →
          App.remove cfg env name = (Except.error e, cfg, [Event.dockerDelete p.name])) := by
  have hrest1 : (App.removeRest cfg p).1 = Except.ok ()
      ∧ (App.removeRest cfg p).2.1 = { programs := cfg.programs.eraseIdx i } := by
    unfold App.removeRest
    rw [Config.remove_of_find cfg name p i hfind]
    cases p.icon <;> exact ⟨rfl, rfl⟩
  constructor
  · intro hdel
    have hred : App.remove cfg env name = App.removeRest cfg p := by
      unfold App.remove
      simp [hfind, hdel]
    rw [hred]
    exact hrest1
  · intro e hdel hne
    unfold App.remove
    simp only [hfind, hdel, if_neg hne]

/-- C6 witness: a one-record registry, a gateway delete reporting 404 —
`remove` succeeds and empties the registry; a gateway delete reporting
status 500 — `remove` fails with that error and the registry keeps its
record. -/
theorem remove_gateway_404_swallowed_witness :
    Config.find { programs := [Program.new "foo" "./a.deb" [] none none none] } "foo" =
        some (Program.new "foo" "./a.deb" [] none none none, 0)
    ∧ (App.remove { programs := [Program.new "foo" "./a.deb" [] none none none] }
          { deleteRes := Except.error (AppError.dockerStatus 404),
            removeEntryRes := Except.ok () } "foo").1 = Except.ok ()
    ∧ (App.remove { programs := [Program.new "foo" "./a.deb" [] none none none] }
          { deleteRes := Except.error (AppError.dockerStatus 404),
            removeEntryRes := Except.ok () } "foo").2.1 = { programs := [] }
    ∧ App.remove { programs := [Program.new "foo" "./a.deb" [] none none none] }
          { deleteRes := Except.error (AppError.dockerStatus 500),
            removeEntryRes := Except.ok () } "foo" =
        (Except.error (AppError.dockerStatus 500),
          { programs := [Program.new "foo" "./a.deb" [] none none none] },
          [Event.dockerDelete "foo"]) := by
  have h404 := remove_gateway_404_swallowed
    { programs := [Program.new "foo" "./a.deb" [] none none none] }
    { deleteRes := Except.error (AppError.dockerStatus 404), removeEntryRes := Except.ok () }
    "foo" (Program.new "foo" "./a.deb" [] none none none) 0 rfl
  have h500 := remove_gateway_404_swallowed
    { programs := [Program.new "foo" "./a.deb" [] none none none] }
    { deleteRes := Except.error (AppError.dockerStatus 500), removeEntryRes := Except.ok () }
    "foo" (Program.new "foo" "./a.deb" [] none none none) 0 rfl
  refine ⟨rfl, (h404.1 rfl).1, (h404.1 rfl).2, ?_⟩
  exact h500.2 (AppError.dockerStatus 500) rfl (by decide)

/-- Modelled from the spec: serde_json is an external collaborator; section
6 of the spec makes any malformed document a hard failure, and serde_json's
`from_str` demands one complete JSON value, so a document containing only
whitespace is malformed.  This function models `from_str` only as far as the
claims below need it: whitespace-only content fails with serde_json's
end-of-input message (other content is outside the scope of its uses). -/
def wsOnlyFromStr : String → Except String Config := fun s =>
  if s.toList.all (fun c => c == ' ' || c == '\t' || c == '\n' || c == '\r') then
    Except.error "EOF while parsing a value at line 1 column 0"
  else Except.error "unmodelled document"

/-- Storage state whose registry document is a single space: blank but not
empty in the sense of `String::is_empty`. -/
def blankStorage : Storage :=
  { pathExists := true, createRes := Except.ok (), initWriteRes := Except.ok (),
    readRes := Except.ok " ", fromStr := wsOnlyFromStr }

/-- C4 counterexample: on storage holding a whitespace-only (blank but
nonempty) document, `deserialize` does not return the empty registry as the
claim asserts — `config_str.is_empty()` is false for a single space, so the
content is handed to the parser and the parse failure surfaces as an
`AppError::File`. -/
theorem deserialize_blank_is_parsed :
    Config.deserialize blankStorage =
        Except.error (AppError.file "EOF while parsing a value at line 1 column 0")
      ∧ Config.deserialize blankStorage ≠ Except.ok { programs := [] } :=
  have h1 : Config.deserialize blankStorage =
      Except.error (AppError.file "EOF while parsing a value at line 1 column 0") := rfl
  ⟨h1, fun h => Except.noConfusion (h1.symm.trans h)⟩

/-- C4 (amended): `deserialize` returns the empty registry when the storage
path is absent and `File::create` succeeds; when storage exists it returns
the empty registry without parsing only for content that is exactly the
empty string; any other content — whitespace-only included — is handed to
the parser, and a parse failure becomes an `AppError::File`. -/
theorem deserialize_dispatch (cr : Except String Unit) (w : Except String Unit)
    (r : Except String String) (p : String → Except String Config) :
    (Config.deserialize { pathExists := false, createRes := Except.ok (),
                          initWriteRes := w, readRes := r, fromStr := p } =
        Except.ok { programs := [] })
    ∧ (Config.deserialize { pathExists := true, createRes := cr, initWriteRes := w,
                            readRes := Except.ok "", fromStr := p } =
        Except.ok { programs := [] })
    ∧ (∀ content e, content ≠ "" → p content = Except.error e →
        Config.deserialize { pathExists := true, createRes := cr, initWriteRes := w,
                             readRes := Except.ok content, fromStr := p } =
          Except.error (AppError.file e)) := by
  refine ⟨rfl, rfl, fun content e hne hperr => ?_⟩
  unfold Config.deserialize
  simp [hne, hperr]

/-- C4 witness for the amended claim's parser branch, at the blank document
made of one space. -/
theorem deserialize_dispatch_witness :
    (" " ≠ "") ∧ wsOnlyFromStr " " =
        Except.error "EOF while parsing a value at line 1 column 0"
      ∧ Config.deserialize { pathExists := true, createRes := Except.ok (),
                             initWriteRes := Except.ok (), readRes := Except.ok " ",
                             fromStr := wsOnlyFromStr } =
        Except.error (AppError.file "EOF while parsing a value at line 1 column 0") :=
  ⟨by decide, rfl,
    (deserialize_dispatch (Except.ok ()) (Except.ok ()) (Except.ok " ") wsOnlyFromStr).2.2
      " " "EOF while parsing a value at line 1 column 0" (by decide) rfl⟩

/-- Host probe with both a window manager and a sound daemon. -/
def fullSystem : System :=
  { wm := some (), sd := some () }

/-- Environment identical to `happyEnv` except that the docker image build
fails with a gateway status error. -/
def buildFailEnv : CreateEnv :=
  { happyEnv with dockerCreateRes := Except.error (AppError.dockerStatus 500) }

/-- C1 evidence: evaluating `create` in a state where the image build fails
exhibits the code's actual order — the record is pushed into the registry
(`registryPush`, sixth call) before the image build is invoked
(`dockerBuild`, seventh call), and the failed operation ends with the
registry containing a record whose image was never built. -/
theorem create_pushes_before_build :
    App.create { programs := [] } (FeaturesList.new fullSystem) buildFailEnv
        "./pkg.deb" [Feature.display] none none none =
      (Except.error (AppError.dockerStatus 500),
        { programs := [Program.new "foo" "./pkg.deb" [Feature.display] none none none] },
        [Event.debExtract, Event.fsCreateDir, Event.fsCopy, Event.genDockerfile,
         Event.fsWriteDockerfile, Event.registryPush "foo", Event.dockerBuild "foo"]) := by
  rfl

/-- Registry already holding a program named `foo`. -/
def fooConfig : Config :=
  { programs := [Program.new "foo" "./old.deb" [] none none none] }

/-- C9 evidence: evaluating `create` on a duplicate name shows a failing
exit path taken after the package copy was staged (`fsCopy`) and the
Dockerfile written (`fsWriteDockerfile`) on which neither scratch file is
removed: no `fsRemoveTmp` or `fsRemoveDockerfile` call occurs. -/
theorem create_failure_skips_cleanup :
    App.create fooConfig (FeaturesList.new fullSystem) happyEnv
        "./pkg.deb" [] none none none =
      (Except.error (AppError.program (dupMsg "foo")), fooConfig,
        [Event.debExtract, Event.fsCreateDir, Event.fsCopy, Event.genDockerfile,
         Event.fsWriteDockerfile, Event.registryPush "foo"])
    ∧ Event.fsCopy ∈ (App.create fooConfig (FeaturesList.new fullSystem) happyEnv
        "./pkg.deb" [] none none none).2.2
    ∧ Event.fsRemoveTmp ∉ (App.create fooConfig (FeaturesList.new fullSystem) happyEnv
        "./pkg.deb" [] none none none).2.2
    ∧ Event.fsRemoveDockerfile ∉ (App.create fooConfig (FeaturesList.new fullSystem) happyEnv
        "./pkg.deb" [] none none none).2.2 := by
  refine ⟨rfl, ?_, ?_, ?_⟩ <;> decide

/-- Helper: bind on a successful `Except` computation reduces to the
continuation. -/
theorem except_bind_ok (a : α) (f : α → Except ε β) :
    Except.ok a >>= f = f a := rfl

/-- Decoding inverts encoding on `Feature`. -/
theorem decodeFeature_encodeFeature (f : Feature) :
    decodeFeature (encodeFeature f) = Except.ok f := by
  cases f <;> rfl

/-- Decoding a mapped array element by element inverts it whenever the
element decoder inverts the element encoder. -/
theorem decodeList_map (dec : Json → Except String α) (enc : α → Json)
    (hinv : ∀ a, dec (enc a) = Except.ok a) (l : List α) :
    decodeList dec (l.map enc) = Except.ok l := by
  induction l with
  | nil => rfl
  | cons a as ih => simp [decodeList, hinv a, ih]

/-- Decoding inverts encoding on `Icon`. -/
theorem decodeIcon_encodeIcon (i : Icon) :
    decodeIcon (encodeIcon i) = Except.ok i := by
  cases i
  rfl

/-- Decoding inverts encoding on optional icons. -/
theorem decodeOption_icon_inv (o : Option Icon) :
    decodeOption decodeIcon (encodeOption encodeIcon o) = Except.ok o := by
  cases o with
  | none => rfl
  | some i =>
      show (decodeIcon (encodeIcon i)).map some = Except.ok (some i)
      rw [decodeIcon_encodeIcon]
      rfl

/-- Decoding inverts encoding on optional strings. -/
theorem decodeOption_str_inv (o : Option String) :
    decodeOption decodeStr (encodeOption Json.str o) = Except.ok o := by
  cases o <;> rfl

/-- Decoding inverts encoding on `Program` records. -/
theorem decodeProgram_encodeProgram (p : Program) :
    decodeProgram (encodeProgram p) = Except.ok p := by
  cases p with
  | mk name path settings icon command deps =>
      simp [decodeProgram, encodeProgram, decodeStr, List.lookup, except_bind_ok,
            decodeList_map decodeFeature encodeFeature decodeFeature_encodeFeature,
            decodeOption_icon_inv, decodeOption_str_inv]

/-- Decoding inverts encoding on whole registry documents, preserving
record order. -/
theorem decodeConfig_encodeConfig (c : Config) :
    decodeConfig (encodeConfig c) = Except.ok c := by
  cases c with
  | mk programs =>
      simp [decodeConfig, encodeConfig, List.lookup, Except.map,
            decodeList_map decodeProgram encodeProgram decodeProgram_encodeProgram]

/-- A serialized registry document is never the empty string (it renders as
an object, starting with an opening brace), so a reload of saved content
never takes the empty-content shortcut of `deserialize`. -/
theorem serialize_ne_empty (c : Config) : Config.serialize c ≠ "" := by
  intro h
  have hdata : renderChars (encodeConfig c) = [] := congrArg String.data h
  simp only [encodeConfig] at hdata
  simp only [renderChars] at hdata
  exact List.noConfusion hdata

/-- C5: the registry save/load round-trip.  `serialize` writes the compact
rendering of the serde document of `R`; on reload the content is not the
empty string, so `deserialize` does not take its empty-content shortcut,
hands the saved document to the parser, and — for any parser that inverts
the rendering of that document, the guarantee serde_json provides for its
own output — the result is exactly the registry that was saved, records in
the same order. -/
theorem save_load_roundtrip (R : Config) (fromStr : String → Except String Config)
    (hTransport : fromStr (Config.serialize R) = decodeConfig (encodeConfig R)) :
    Config.deserialize { pathExists := true, createRes := Except.ok (),
                         initWriteRes := Except.ok (),
                         readRes := Except.ok (Config.serialize R),
                         fromStr := fromStr } = Except.ok R := by
  unfold Config.deserialize
  simp [serialize_ne_empty R, hTransport, decodeConfig_encodeConfig]

/-- Concrete registry for the round-trip witness: one record exercising
every field, icon and dependency string included. -/
def sampleConfig : Config :=
  { programs := [Program.new "foo" "./pkg.deb" [Feature.display, Feature.sound]
      (some { path := "./icon.png" }) (some "run-foo") (some "libx, liby")] }

/-- Parser behaving as `serde_json::from_str` does on the saved sample
document: it inverts the rendering of that document. -/
def sampleFromStr : String → Except String Config := fun s =>
  if s == Config.serialize sampleConfig then decodeConfig (encodeConfig sampleConfig)
  else Except.error "unmodelled document"

/-- C5 witness: the sample registry survives the save/load round-trip. -/
theorem save_load_roundtrip_witness :
    sampleFromStr (Config.serialize sampleConfig) = decodeConfig (encodeConfig sampleConfig)
    ∧ Config.deserialize { pathExists := true, createRes := Except.ok (),
                           initWriteRes := Except.ok (),
                           readRes := Except.ok (Config.serialize sampleConfig),
                           fromStr := sampleFromStr } = Except.ok sampleConfig := by
  constructor
  · simp [sampleFromStr]
  · exact save_load_roundtrip sampleConfig sampleFromStr (by simp [sampleFromStr])
